import Mathlib

/-!
Verification of the mesh packing and GPU-resource provisioning core of
`crates/bevy_render/src/mesh.rs`.

The embedding is byte-exact: a Rust `f32` (or `u32`) is represented by its
32-bit pattern as a `Nat`, and `zerocopy::AsBytes` byte views are modelled as
little-endian byte lists (`List Nat`, each element below 256).  Fallible Rust
code is embedded in `Option`: a `none` result models a Rust panic (an
out-of-bounds slice, a failed `copy_from_slice`, or `.unwrap()` on
`None`/`Err`), while `some` carries the normal control flow, including the
`Result` values that `get_vertex_buffer_bytes` returns.
-/

deriving instance DecidableEq for Except

namespace BevyMesh

/-- Modelled from the spec: the `PrimitiveTopology` enum lives in the pipeline
state descriptors, outside the packaged source; the spec lists five variants
(point, line, line strip, triangle, triangle strip), named here as the source
uses them (`PrimitiveTopology::TriangleList`, `TriangleStrip`). -/
inductive PrimitiveTopology where
  | PointList
  | LineList
  | LineStrip
  | TriangleList
  | TriangleStrip
deriving DecidableEq, Repr

/-- Modelled from the spec: the `IndexFormat` enum (16- or 32-bit index width)
lives in the pipeline state descriptors, outside the packaged source. -/
inductive IndexFormat where
  | Uint16
  | Uint32
deriving DecidableEq, Repr

/-- Modelled from the spec: the `VertexFormat` enum, restricted to the shapes
the attribute data model supports (32-bit float scalar and 2/3/4-component
vectors). -/
inductive VertexFormat where
  | Float
  | Float2
  | Float3
  | Float4
deriving DecidableEq, Repr

/-- Modelled from the spec: the per-element byte size implied by a numeric
format (components are 32-bit floats). -/
def VertexFormat.get_size : VertexFormat → Nat
  | .Float => 4
  | .Float2 => 8
  | .Float3 => 12
  | .Float4 => 16

/-- Little-endian byte view of one 32-bit value (a Rust `f32` or `u32` is
carried as its raw bit pattern). -/
def bytes32 (v : Nat) : List Nat :=
  [v % 256, v / 256 % 256, v / 65536 % 256, v / 16777216 % 256]

/-- Little-endian byte view of one 16-bit value (`v` already below 65536). -/
def bytes16 (v : Nat) : List Nat :=
  [v % 256, v / 256 % 256]

/-- `VertexAttributeValues`: a tagged union of float vectors; each `f32` is
its 32-bit pattern. -/
inductive VertexAttributeValues where
  | Float (values : List Nat)
  | Float2 (values : List (Nat × Nat))
  | Float3 (values : List (Nat × Nat × Nat))
  | Float4 (values : List (Nat × Nat × Nat × Nat))
deriving DecidableEq, Repr

/-- `VertexAttributeValues::len`. -/
def VertexAttributeValues.len : VertexAttributeValues → Nat
  | .Float values => values.length
  | .Float2 values => values.length
  | .Float3 values => values.length
  | .Float4 values => values.length

/-- `VertexAttributeValues::get_bytes`: the `zerocopy::AsBytes` raw byte view,
the concatenation of the components' little-endian bytes. -/
def VertexAttributeValues.get_bytes : VertexAttributeValues → List Nat
  | .Float values => values.flatMap bytes32
  | .Float2 values => values.flatMap (fun v => bytes32 v.1 ++ bytes32 v.2)
  | .Float3 values => values.flatMap (fun v => bytes32 v.1 ++ bytes32 v.2.1 ++ bytes32 v.2.2)
  | .Float4 values =>
    values.flatMap (fun v => bytes32 v.1 ++ bytes32 v.2.1 ++ bytes32 v.2.2.1 ++ bytes32 v.2.2.2)

/-- `impl From<&VertexAttributeValues> for VertexFormat`. -/
def VertexAttributeValues.vertex_format : VertexAttributeValues → VertexFormat
  | .Float _ => .Float
  | .Float2 _ => .Float2
  | .Float3 _ => .Float3
  | .Float4 _ => .Float4

/-- `VertexAttribute`: a name paired with values. -/
structure VertexAttribute where
  name : String
  values : VertexAttributeValues
deriving DecidableEq, Repr

/-- `MeshToVertexBufferError`. -/
inductive MeshToVertexBufferError where
  | MissingVertexAttribute (attribute_name : String)
  | IncompatibleVertexAttributeFormat
      (attribute_name : String) (descriptor_format mesh_format : VertexFormat)
deriving DecidableEq, Repr

/-- `Mesh`: topology, ordered named attributes, optional `Vec<u32>` indices. -/
structure Mesh where
  primitive_topology : PrimitiveTopology
  attributes : List VertexAttribute
  indices : Option (List Nat)
deriving DecidableEq, Repr

/-- Modelled from the spec: one Layout Descriptor entry (name, byte offset,
numeric format); the `VertexAttributeDescriptor` type lives in the pipeline
module, outside the packaged source. -/
structure VertexAttributeDescriptor where
  name : String
  offset : Nat
  format : VertexFormat
deriving DecidableEq, Repr

/-- Modelled from the spec: the Layout Descriptor (`VertexBufferDescriptor`):
a per-vertex stride plus an ordered entry list; the type lives in the pipeline
module, outside the packaged source. -/
structure VertexBufferDescriptor where
  stride : Nat
  attributes : List VertexAttributeDescriptor
deriving DecidableEq, Repr

/-- `bytes[pos..pos + size].copy_from_slice(chunk)`: `none` models the Rust
panic when the destination slice is out of bounds or the source length does
not match. -/
def copyChunk (bytes : List Nat) (pos size : Nat) (chunk : List Nat) : Option (List Nat) :=
  if pos + size ≤ bytes.length ∧ chunk.length = size then
    some (bytes.take pos ++ chunk ++ bytes.drop (pos + size))
  else none

/-- The number of slices `chunks(size)` yields on a `len`-byte view
(for `size > 0`): `len / size` rounded up. -/
def numChunks (size len : Nat) : Nat := (len + size - 1) / size

/-- The inner loop of `get_vertex_buffer_bytes` for one descriptor entry:
`for (i, vertex_slice) in attribute_bytes.chunks(attribute_size).enumerate()`
copies `vertex_slice` to offset `stride * i + offset`.  `k` counts the
remaining chunks; chunk `i` is `ab[size * i ..].take size` (the last chunk may
be shorter, which makes `copy_from_slice` panic). -/
def copyLoop (stride off size : Nat) (ab : List Nat) :
    Nat → Nat → List Nat → Option (List Nat)
  | 0, _, bytes => some bytes
  | k + 1, i, bytes =>
    match copyChunk bytes (stride * i + off) size ((ab.drop (size * i)).take size) with
    | none => none
    | some b => copyLoop stride off size ab k (i + 1) b

/-- The loop of `get_vertex_buffer_bytes` over the descriptor's entries:
`some (.ok _)` is the normal return, `some (.error _)` the early `Err` return
on a missing attribute, `none` a panic inside a copy. -/
def packAttributes (m : Mesh) (stride : Nat) :
    List VertexAttributeDescriptor → List Nat →
    Option (Except MeshToVertexBufferError (List Nat))
  | [], bytes => some (Except.ok bytes)
  | e :: rest, bytes =>
    match m.attributes.find? (fun a => e.name == a.name) with
    | none => some (Except.error (.MissingVertexAttribute e.name))
    | some mesh_attribute =>
      match copyLoop stride e.offset e.format.get_size mesh_attribute.values.get_bytes
          (numChunks e.format.get_size mesh_attribute.values.get_bytes.length) 0 bytes with
      | none => none
      | some b => packAttributes m stride rest b

/-- `self.attributes.first().map(|a| a.values.len()).unwrap_or(0)`. -/
def Mesh.vertex_count (m : Mesh) : Nat :=
  (m.attributes.head?.map (fun a => a.values.len)).getD 0

/-- `Mesh::get_vertex_buffer_bytes`: allocate `stride * length` zero bytes and
run the entry loop. -/
def Mesh.get_vertex_buffer_bytes (m : Mesh) (d : VertexBufferDescriptor) :
    Option (Except MeshToVertexBufferError (List Nat)) :=
  packAttributes m d.stride d.attributes (List.replicate (d.stride * m.vertex_count) 0)

/-- `Mesh::get_index_buffer_bytes`: `None` when the mesh has no indices;
`Uint16` maps each `u32` through `as u16` (truncation modulo 2^16) and
serializes the `Vec<u16>`; `Uint32` serializes the `Vec<u32>` directly. -/
def Mesh.get_index_buffer_bytes (m : Mesh) (index_format : IndexFormat) :
    Option (List Nat) :=
  m.indices.map (fun indices =>
    match index_format with
    | .Uint16 => (indices.map (fun i => i % 65536)).flatMap bytes16
    | .Uint32 => indices.flatMap bytes32)

def VERTEX_BUFFER_ASSET_INDEX : Nat := 0
def INDEX_BUFFER_ASSET_INDEX : Nat := 1

/-- Modelled from the spec: buffer usage flags (vertex vs index slot). -/
inductive BufferUsage where
  | NONE
  | VERTEX
  | INDEX
deriving DecidableEq, Repr

/-- Modelled from the spec: `BufferInfo`, reduced to the usage field the
source sets (`BufferInfo { buffer_usage, ..Default::default() }`). -/
structure BufferInfo where
  buffer_usage : BufferUsage
deriving DecidableEq, Repr

/-- Modelled from the spec: the external `RenderResourceContext`.  `assets` is
the registry keying `(mesh handle, slot index)` to an opaque buffer handle
(newest entry first, so insertion overwrites); `next_id` is the fresh-handle
counter; `created` logs every `create_buffer_with_data` call with its usage
and uploaded bytes. -/
structure RenderContext where
  assets : List ((Nat × Nat) × Nat)
  next_id : Nat
  created : List (BufferInfo × List Nat)
deriving DecidableEq, Repr

/-- Modelled from the spec: `get_asset_resource(handle, index)`, the
cached-handle lookup. -/
def RenderContext.get_asset_resource (ctx : RenderContext) (handle idx : Nat) :
    Option Nat :=
  (ctx.assets.find? (fun entry => entry.1 == (handle, idx))).map (fun entry => entry.2)

/-- Modelled from the spec: `create_buffer_with_data(info, bytes)` returns a
fresh handle and records the allocation. -/
def RenderContext.create_buffer_with_data (ctx : RenderContext) (info : BufferInfo)
    (bytes : List Nat) : Nat × RenderContext :=
  (ctx.next_id, ⟨ctx.assets, ctx.next_id + 1, ctx.created ++ [(info, bytes)]⟩)

/-- Modelled from the spec: `set_asset_resource(handle, resource, index)`
registers a handle for a slot. -/
def RenderContext.set_asset_resource (ctx : RenderContext)
    (handle resource idx : Nat) : RenderContext :=
  ⟨((handle, idx), resource) :: ctx.assets, ctx.next_id, ctx.created⟩

/-- Modelled from the spec: the part of `PipelineSpecialization` this core
writes (the topology field). -/
structure PipelineSpecialization where
  primitive_topology : PrimitiveTopology
deriving DecidableEq, Repr

/-- Modelled from the spec: the per-entity render configuration
(`RenderResourceAssignments`): an id, the named vertex/index buffer bindings,
and the pipeline specialization. -/
structure RenderResourceAssignments where
  id : Nat
  vertex_buffers : List (String × Nat × Option Nat)
  pipeline_specialization : PipelineSpecialization
deriving DecidableEq, Repr

/-- Modelled from the spec: `set_vertex_buffer(name, vertex_buffer,
index_buffer)` binds the handle pair under the name, replacing any previous
binding of that name. -/
def RenderResourceAssignments.set_vertex_buffer (rra : RenderResourceAssignments)
    (name : String) (vertex_buffer : Nat) (index_buffer : Option Nat) :
    RenderResourceAssignments :=
  ⟨rra.id, (name, vertex_buffer, index_buffer) :: rra.vertex_buffers.filter (fun b => b.1 != name),
    rra.pipeline_specialization⟩

/-- `Renderable`, reduced to the field this core touches. -/
structure Renderable where
  render_resource_assignments : RenderResourceAssignments
deriving DecidableEq, Repr

/-- Modelled from the spec: `AssetStorage<Mesh>` keyed by handle. -/
abbrev AssetStorage := List (Nat × Mesh)

/-- Modelled from the spec: `AssetStorage::get`. -/
def AssetStorage.get (meshes : AssetStorage) (handle : Nat) : Option Mesh :=
  (List.find? (fun entry => entry.1 == handle) meshes).map (fun entry => entry.2)

/-- `setup_mesh_resource`: on a cached vertex handle, reuse it together with
whatever the index slot holds; on a miss, fetch the mesh (`unwrap`), pack the
vertex bytes (`unwrap`), create the vertex buffer, pack the index bytes at the
hardcoded `IndexFormat::Uint16` (`unwrap` — panics when `indices` is absent),
create the index buffer, register both slots, and attach the pair under the
"Vertex" binding.  `none` models any of the panics; buffers created before a
panic are not observable in this model, as no claim depends on them. -/
def setup_mesh_resource (ctx : RenderContext) (rra : RenderResourceAssignments)
    (vertex_buffer_descriptor : VertexBufferDescriptor) (handle : Nat)
    (meshes : AssetStorage) : Option (RenderContext × RenderResourceAssignments) :=
  match ctx.get_asset_resource handle VERTEX_BUFFER_ASSET_INDEX with
  | some vertex_buffer =>
    some (ctx, rra.set_vertex_buffer "Vertex" vertex_buffer
      (ctx.get_asset_resource handle INDEX_BUFFER_ASSET_INDEX))
  | none =>
    match meshes.get handle with
    | none => none
    | some mesh_asset =>
      match mesh_asset.get_vertex_buffer_bytes vertex_buffer_descriptor with
      | none => none
      | some (Except.error _) => none
      | some (Except.ok vertex_bytes) =>
        match (ctx.create_buffer_with_data ⟨BufferUsage.VERTEX⟩ vertex_bytes) with
        | (vertex_buffer, ctx1) =>
          match mesh_asset.get_index_buffer_bytes IndexFormat.Uint16 with
          | none => none
          | some index_bytes =>
            match ctx1.create_buffer_with_data ⟨BufferUsage.INDEX⟩ index_bytes with
            | (index_buffer, ctx2) =>
              some (((ctx2.set_asset_resource handle vertex_buffer VERTEX_BUFFER_ASSET_INDEX).set_asset_resource
                  handle index_buffer INDEX_BUFFER_ASSET_INDEX),
                rra.set_vertex_buffer "Vertex" vertex_buffer (some index_buffer))

/-- The per-entity body of `mesh_specializer_system`: look the mesh up
(`unwrap`, `none` models the panic) and copy its topology into the
renderable's pipeline specialization. -/
def specialize_mesh_entity (meshes : AssetStorage) (handle : Nat) (r : Renderable) :
    Option Renderable :=
  (meshes.get handle).map (fun mesh =>
    ⟨⟨r.render_resource_assignments.id, r.render_resource_assignments.vertex_buffers,
      ⟨mesh.primitive_topology⟩⟩⟩)

/-- Position `p` of the output buffer lies in a byte range that the entry `e`
writes: the matched attribute exists and some chunk index `i` covers `p`. -/
def entryWrites (m : Mesh) (stride : Nat) (e : VertexAttributeDescriptor) (p : Nat) : Prop :=
  ∃ a, m.attributes.find? (fun a => e.name == a.name) = some a ∧
    ∃ i, i < numChunks e.format.get_size a.values.get_bytes.length ∧
      stride * i + e.offset ≤ p ∧ p < stride * i + e.offset + e.format.get_size

/-! ### Concrete inputs used by counterexamples and witnesses -/

/-- A mesh with one attribute `a` holding one float (bit pattern 0). -/
def ceMesh : Mesh := ⟨.TriangleList, [⟨"a", .Float [0]⟩], none⟩

/-- A descriptor with stride 0 and one `Float` entry: the copy of the 4-byte
chunk into the 0-byte output panics. -/
def ceDescriptor : VertexBufferDescriptor := ⟨0, [⟨"a", 0, .Float⟩]⟩

/-- A stride-0 descriptor whose second entry names an attribute absent from
`ceMesh`; the panic on entry `a` precedes the missing-attribute check. -/
def ce3Descriptor : VertexBufferDescriptor := ⟨0, [⟨"a", 0, .Float⟩, ⟨"b", 0, .Float⟩]⟩

/-- A mesh with two one-float attributes with different bit patterns. -/
def ce2Mesh : Mesh := ⟨.TriangleList, [⟨"a", .Float [1]⟩, ⟨"b", .Float [2]⟩], none⟩

/-- Two entries at the same offset: the second overwrites the first. -/
def ce2Descriptor : VertexBufferDescriptor := ⟨4, [⟨"a", 0, .Float⟩, ⟨"b", 0, .Float⟩]⟩

/-- The mesh of the `test_get_vertex_bytes` unit test, with bit patterns
0 to 8 standing for the nine distinct float values. -/
def testMesh : Mesh :=
  ⟨.TriangleStrip,
    [⟨"Vertex_Position", .Float3 [(0, 0, 0), (3, 3, 3), (6, 6, 6)]⟩,
     ⟨"Vertex_Normal", .Float3 [(1, 1, 1), (4, 4, 4), (7, 7, 7)]⟩,
     ⟨"Vertex_Uv", .Float2 [(2, 2), (5, 5), (8, 8)]⟩], none⟩

/-- The `Vertex` layout: stride 32, position at 0, normal at 12, uv at 24. -/
def testDescriptor : VertexBufferDescriptor :=
  ⟨32, [⟨"Vertex_Position", 0, .Float3⟩, ⟨"Vertex_Normal", 12, .Float3⟩,
    ⟨"Vertex_Uv", 24, .Float2⟩]⟩

/-- A two-vertex single-attribute mesh. -/
def w2Mesh : Mesh := ⟨.TriangleList, [⟨"a", .Float [1, 2]⟩], none⟩

/-- A descriptor interleaving just attribute `a` at stride 4. -/
def w2Descriptor : VertexBufferDescriptor := ⟨4, [⟨"a", 0, .Float⟩]⟩

/-- A single-attribute mesh for the missing-attribute witness. -/
def w3Mesh : Mesh := ⟨.TriangleList, [⟨"a", .Float [3]⟩], none⟩

/-- A workable first entry followed by an entry naming an absent attribute. -/
def w3Descriptor : VertexBufferDescriptor := ⟨4, [⟨"a", 0, .Float⟩, ⟨"b", 0, .Float⟩]⟩

/-- An empty render resource context. -/
def ctx0 : RenderContext := ⟨[], 0, []⟩

/-- An empty render configuration. -/
def rra0 : RenderResourceAssignments := ⟨0, [], ⟨.TriangleList⟩⟩

/-- An indexed one-vertex mesh for the provisioning witnesses. -/
def okMesh : Mesh := ⟨.TriangleList, [⟨"a", .Float [5]⟩], some [0]⟩

/-- The descriptor used with `okMesh`. -/
def dOk : VertexBufferDescriptor := ⟨4, [⟨"a", 0, .Float⟩]⟩

/-- An asset storage holding `okMesh` under handle 7. -/
def meshes0 : AssetStorage := [(7, okMesh)]

/-- A mesh whose `indices` field is absent (and with no attributes, so vertex
packing trivially succeeds). -/
def ce5Mesh : Mesh := ⟨.TriangleList, [], none⟩

/-- An empty descriptor. -/
def d0 : VertexBufferDescriptor := ⟨0, []⟩

/-- An asset storage holding `ce5Mesh` under handle 7. -/
def meshes5 : AssetStorage := [(7, ce5Mesh)]

/-- A mesh with an index value that does not fit in 16 bits. -/
def mesh10 : Mesh := ⟨.TriangleList, [], some [65536]⟩

/-- An asset storage holding `mesh10` under handle 3. -/
def meshes10 : AssetStorage := [(3, mesh10)]

/-- A mesh whose indices are the 16-bit boundary example `[0, 1, 65536]`. -/
def mesh7 : Mesh := ⟨.TriangleList, [], some [0, 1, 65536]⟩

/-- A mesh with present but empty indices. -/
def mesh6 : Mesh := ⟨.TriangleList, [], some []⟩

/-- A renderable whose topology field starts out different from `okMesh`'s. -/
def r8 : Renderable := ⟨⟨3, [("x", 1, none)], ⟨.PointList⟩⟩⟩

/-! ### Helper lemmas about the packer loops -/

theorem get_size_pos (f : VertexFormat) : 0 < f.get_size := by
  cases f <;> simp [VertexFormat.get_size]

theorem numChunks_mul {size N : Nat} (h : 0 < size) : numChunks size (size * N) = N := by
  unfold numChunks
  rw [Nat.add_sub_assoc h, Nat.mul_add_div h, Nat.div_eq_of_lt (by omega), Nat.add_zero]

theorem copyChunk_eq_some {bytes chunk b : List Nat} {pos size : Nat}
    (h : copyChunk bytes pos size chunk = some b) :
    pos + size ≤ bytes.length ∧ chunk.length = size ∧
      b = bytes.take pos ++ chunk ++ bytes.drop (pos + size) := by
  unfold copyChunk at h
  split at h
  · rename_i hc
    cases h
    exact ⟨hc.1, hc.2, rfl⟩
  · cases h

theorem copyChunk_length {bytes chunk b : List Nat} {pos size : Nat}
    (h : copyChunk bytes pos size chunk = some b) : b.length = bytes.length := by
  obtain ⟨h1, h2, rfl⟩ := copyChunk_eq_some h
  simp [List.length_append, List.length_take, List.length_drop]
  omega

theorem copyChunk_getElem {bytes chunk b : List Nat} {pos size : Nat}
    (h : copyChunk bytes pos size chunk = some b) (j : Nat) :
    b[j]? = if pos ≤ j ∧ j < pos + size then chunk[j - pos]? else bytes[j]? := by
  obtain ⟨hle, hlen, rfl⟩ := copyChunk_eq_some h
  have htl : (bytes.take pos).length = pos := by rw [List.length_take]; omega
  rw [List.append_assoc, List.getElem?_append, htl]
  by_cases h1 : j < pos
  · rw [if_pos h1, List.getElem?_take, if_pos h1, if_neg (by omega)]
  · rw [if_neg h1, List.getElem?_append, hlen]
    by_cases h2 : j - pos < size
    · rw [if_pos h2, if_pos (by omega)]
    · rw [if_neg h2, if_neg (by omega), List.getElem?_drop]
      congr 1
      omega

theorem copyLoop_length {stride off size : Nat} {ab : List Nat} {k : Nat} :
    ∀ {i : Nat} {bytes out : List Nat},
      copyLoop stride off size ab k i bytes = some out → out.length = bytes.length := by
  induction k with
  | zero =>
    intro i bytes out h
    cases h
    rfl
  | succ k ih =>
    intro i bytes out h
    simp only [copyLoop] at h
    cases hc : copyChunk bytes (stride * i + off) size ((ab.drop (size * i)).take size) with
    | none => rw [hc] at h; cases h
    | some b =>
      rw [hc] at h
      rw [ih h, copyChunk_length hc]

theorem copyLoop_some {stride off size : Nat} {ab : List Nat} {k : Nat} :
    ∀ {i : Nat} {bytes : List Nat},
      (∀ n, i ≤ n → n < i + k →
        stride * n + off + size ≤ bytes.length ∧
          ((ab.drop (size * n)).take size).length = size) →
      ∃ out, copyLoop stride off size ab k i bytes = some out := by
  induction k with
  | zero =>
    intro i bytes _
    exact ⟨bytes, rfl⟩
  | succ k ih =>
    intro i bytes hbound
    have h0 := hbound i (Nat.le_refl i) (by omega)
    have hc : copyChunk bytes (stride * i + off) size ((ab.drop (size * i)).take size) =
        some (bytes.take (stride * i + off) ++ (ab.drop (size * i)).take size ++
          bytes.drop (stride * i + off + size)) := by
      unfold copyChunk
      rw [if_pos ⟨by omega, h0.2⟩]
    have hblen := copyChunk_length hc
    obtain ⟨out, hout⟩ := @ih (i + 1)
      (bytes.take (stride * i + off) ++ (ab.drop (size * i)).take size ++
        bytes.drop (stride * i + off + size))
      (by
        intro n hn1 hn2
        have := hbound n (by omega) (by omega)
        omega)
    refine ⟨out, ?_⟩
    simp only [copyLoop]
    rw [hc]
    exact hout

theorem copyLoop_getElem_untouched {stride off size : Nat} {ab : List Nat} {k : Nat} :
    ∀ {i : Nat} {bytes out : List Nat},
      copyLoop stride off size ab k i bytes = some out →
      ∀ p, (∀ n, i ≤ n → n < i + k →
          ¬(stride * n + off ≤ p ∧ p < stride * n + off + size)) →
        out[p]? = bytes[p]? := by
  induction k with
  | zero =>
    intro i bytes out h p _
    cases h
    rfl
  | succ k ih =>
    intro i bytes out h p hp
    simp only [copyLoop] at h
    cases hc : copyChunk bytes (stride * i + off) size ((ab.drop (size * i)).take size) with
    | none => rw [hc] at h; cases h
    | some b =>
      rw [hc] at h
      rw [ih h p (fun n hn1 hn2 => hp n (by omega) (by omega))]
      rw [copyChunk_getElem hc p, if_neg (hp i (Nat.le_refl i) (by omega))]

theorem copyLoop_getElem_touched {stride off size : Nat} {ab : List Nat}
    (hss : size ≤ stride) {k : Nat} :
    ∀ {i : Nat} {bytes out : List Nat},
      copyLoop stride off size ab k i bytes = some out →
      ∀ n, i ≤ n → n < i + k → ∀ j, j < size →
        out[stride * n + off + j]? = ab[size * n + j]? := by
  induction k with
  | zero =>
    intro i bytes out _ n hn1 hn2 j _
    omega
  | succ k ih =>
    intro i bytes out h n hn1 hn2 j hj
    simp only [copyLoop] at h
    cases hc : copyChunk bytes (stride * i + off) size ((ab.drop (size * i)).take size) with
    | none => rw [hc] at h; cases h
    | some b =>
      rw [hc] at h
      by_cases hni : n = i
      · subst hni
        have hb := copyChunk_getElem hc (stride * n + off + j)
        rw [if_pos ⟨by omega, by omega⟩] at hb
        have hidx : stride * n + off + j - (stride * n + off) = j := by omega
        rw [hidx] at hb
        have hchunk : ((ab.drop (size * n)).take size)[j]? = ab[size * n + j]? := by
          rw [List.getElem?_take, if_pos hj, List.getElem?_drop]
        have huntouched : out[stride * n + off + j]? = b[stride * n + off + j]? := by
          apply copyLoop_getElem_untouched h
          intro q hq1 hq2 hreg
          have h1 : stride * (n + 1) ≤ stride * q :=
            Nat.mul_le_mul (Nat.le_refl stride) hq1
          have h2 : stride * (n + 1) = stride * n + stride := Nat.mul_succ stride n
          omega
        rw [huntouched, hb, hchunk]
      · exact ih h n (by omega) (by omega) j hj

theorem regions_disjoint (stride oe se og sg i i' p : Nat)
    (hfit_e : oe + se ≤ stride) (hfit_g : og + sg ≤ stride)
    (hdisj : oe + se ≤ og ∨ og + sg ≤ oe)
    (hp1 : stride * i + oe ≤ p) (hp2 : p < stride * i + oe + se)
    (hq1 : stride * i' + og ≤ p) (hq2 : p < stride * i' + og + sg) : False := by
  rcases Nat.lt_trichotomy i i' with h | h | h
  · have h1 : stride * (i + 1) ≤ stride * i' :=
      Nat.mul_le_mul (Nat.le_refl stride) (Nat.succ_le_of_lt h)
    have h2 : stride * (i + 1) = stride * i + stride := Nat.mul_succ stride i
    omega
  · subst h
    omega
  · have h1 : stride * (i' + 1) ≤ stride * i :=
      Nat.mul_le_mul (Nat.le_refl stride) (Nat.succ_le_of_lt h)
    have h2 : stride * (i' + 1) = stride * i' + stride := Nat.mul_succ stride i'
    omega

theorem packAttributes_cons_found {m : Mesh} {stride : Nat} {e : VertexAttributeDescriptor}
    {rest : List VertexAttributeDescriptor} {bytes b : List Nat} {ma : VertexAttribute}
    (hf : m.attributes.find? (fun a => e.name == a.name) = some ma)
    (hc : copyLoop stride e.offset e.format.get_size ma.values.get_bytes
      (numChunks e.format.get_size ma.values.get_bytes.length) 0 bytes = some b) :
    packAttributes m stride (e :: rest) bytes = packAttributes m stride rest b := by
  simp only [packAttributes, hf, hc]

theorem packAttributes_ok_cons {m : Mesh} {stride : Nat} {e : VertexAttributeDescriptor}
    {rest : List VertexAttributeDescriptor} {bytes out : List Nat}
    (h : packAttributes m stride (e :: rest) bytes = some (Except.ok out)) :
    ∃ ma b, m.attributes.find? (fun a => e.name == a.name) = some ma ∧
      copyLoop stride e.offset e.format.get_size ma.values.get_bytes
        (numChunks e.format.get_size ma.values.get_bytes.length) 0 bytes = some b ∧
      packAttributes m stride rest b = some (Except.ok out) := by
  simp only [packAttributes] at h
  split at h
  · simp at h
  · rename_i ma hf
    split at h
    · cases h
    · rename_i b hc
      exact ⟨ma, b, hf, hc, h⟩

theorem packAttributes_ok_length {m : Mesh} {stride : Nat} :
    ∀ {es : List VertexAttributeDescriptor} {bytes out : List Nat},
      packAttributes m stride es bytes = some (Except.ok out) →
      out.length = bytes.length := by
  intro es
  induction es with
  | nil =>
    intro bytes out h
    cases h
    rfl
  | cons e rest ih =>
    intro bytes out h
    obtain ⟨ma, b, _, hc, hrest⟩ := packAttributes_ok_cons h
    rw [ih hrest, copyLoop_length hc]

theorem packAttributes_untouched {m : Mesh} {stride : Nat} :
    ∀ {es : List VertexAttributeDescriptor} {bytes out : List Nat},
      packAttributes m stride es bytes = some (Except.ok out) →
      ∀ p, (∀ e ∈ es, ¬ entryWrites m stride e p) → out[p]? = bytes[p]? := by
  intro es
  induction es with
  | nil =>
    intro bytes out h p _
    cases h
    rfl
  | cons e rest ih =>
    intro bytes out h p hp
    obtain ⟨ma, b, hf, hc, hrest⟩ := packAttributes_ok_cons h
    rw [ih hrest p (fun g hg => hp g (List.mem_cons_of_mem _ hg))]
    apply copyLoop_getElem_untouched hc
    intro n hn1 hn2 hreg
    exact hp e (List.mem_cons_self e rest)
      ⟨ma, hf, n, by omega, hreg.1, hreg.2⟩

theorem packAttributes_touched {m : Mesh} {stride : Nat} :
    ∀ {es : List VertexAttributeDescriptor} {bytes out : List Nat},
      packAttributes m stride es bytes = some (Except.ok out) →
      (∀ e ∈ es, e.offset + e.format.get_size ≤ stride) →
      es.Pairwise (fun e g => e.offset + e.format.get_size ≤ g.offset ∨
        g.offset + g.format.get_size ≤ e.offset) →
      ∀ e ∈ es, ∀ a, m.attributes.find? (fun x => e.name == x.name) = some a →
        ∀ i, i < numChunks e.format.get_size a.values.get_bytes.length →
        ∀ j, j < e.format.get_size →
          out[stride * i + e.offset + j]? =
            a.values.get_bytes[e.format.get_size * i + j]? := by
  intro es
  induction es with
  | nil =>
    intro bytes out _ _ _ e he
    cases he
  | cons f rest ih =>
    intro bytes out h hfit hdisj e he a hfind i hi j hj
    obtain ⟨ma, b, hf, hc, hrest⟩ := packAttributes_ok_cons h
    rw [List.pairwise_cons] at hdisj
    rcases List.mem_cons.mp he with rfl | hin
    · -- the head entry wrote the region; the remaining entries leave it alone
      rw [hf] at hfind
      cases hfind
      have hb := copyLoop_getElem_touched
        (by exact Nat.le_trans (by omega) (hfit e (List.mem_cons_self e rest))) hc
        i (Nat.zero_le i) (by omega) j hj
      have huntouched : out[stride * i + e.offset + j]? = b[stride * i + e.offset + j]? := by
        apply packAttributes_untouched hrest
        intro g hg hw
        obtain ⟨ag, hgfind, i', hi', hq1, hq2⟩ := hw
        exact regions_disjoint stride e.offset e.format.get_size g.offset g.format.get_size
          i i' (stride * i + e.offset + j)
          (hfit e (List.mem_cons_self e rest))
          (hfit g (List.mem_cons_of_mem _ hg)) (hdisj.1 g hg)
          (by omega) (by omega) hq1 hq2
      rw [huntouched, hb]
    · exact ih hrest (fun g hg => hfit g (List.mem_cons_of_mem _ hg)) hdisj.2
        e hin a hfind i hi j hj

theorem packAttributes_runs {m : Mesh} {stride N : Nat} :
    ∀ {es : List VertexAttributeDescriptor} {bytes : List Nat},
      bytes.length = stride * N →
      (∀ e ∈ es, ∃ a ∈ m.attributes, e.name = a.name) →
      (∀ e ∈ es, e.offset + e.format.get_size ≤ stride) →
      (∀ e ∈ es, ∀ a ∈ m.attributes, e.name = a.name →
        a.values.get_bytes.length = e.format.get_size * N) →
      ∃ b, (∀ rest, packAttributes m stride (es ++ rest) bytes =
          packAttributes m stride rest b) ∧ b.length = stride * N := by
  intro es
  induction es with
  | nil =>
    intro bytes hlen _ _ _
    exact ⟨bytes, fun rest => by simp, hlen⟩
  | cons e tail ih =>
    intro bytes hlen hmatch hfit hsize
    obtain ⟨a0, ha0, hname0⟩ := hmatch e (List.mem_cons_self e tail)
    have hfsome : (m.attributes.find? (fun a => e.name == a.name)).isSome := by
      rw [List.find?_isSome]
      exact ⟨a0, ha0, by simp [hname0]⟩
    obtain ⟨ma, hf⟩ := Option.isSome_iff_exists.mp hfsome
    have hmem := List.mem_of_find?_eq_some hf
    have hpred : e.name = ma.name := by
      have := List.find?_some hf
      simpa using this
    have hab : ma.values.get_bytes.length = e.format.get_size * N :=
      hsize e (List.mem_cons_self e tail) ma hmem hpred
    have hszpos : 0 < e.format.get_size := get_size_pos e.format
    have hk : numChunks e.format.get_size ma.values.get_bytes.length = N := by
      rw [hab, numChunks_mul hszpos]
    have hfite : e.offset + e.format.get_size ≤ stride :=
      hfit e (List.mem_cons_self e tail)
    -- every chunk copy of this entry stays in bounds
    obtain ⟨b, hloop⟩ := @copyLoop_some stride e.offset e.format.get_size
      ma.values.get_bytes N 0 bytes
      (by
        intro n _ hn2
        constructor
        · have h1 : stride * (n + 1) ≤ stride * N :=
            Nat.mul_le_mul (Nat.le_refl stride) (by omega)
          have h2 : stride * (n + 1) = stride * n + stride := Nat.mul_succ stride n
          omega
        · rw [List.length_take, List.length_drop, hab]
          have h1 : e.format.get_size * (n + 1) ≤ e.format.get_size * N :=
            Nat.mul_le_mul (Nat.le_refl _) (by omega)
          have h2 : e.format.get_size * (n + 1) = e.format.get_size * n + e.format.get_size :=
            Nat.mul_succ _ n
          omega)
    have hblen : b.length = stride * N := by rw [copyLoop_length hloop, hlen]
    obtain ⟨c, hc, hclen⟩ := @ih b hblen
      (fun g hg => hmatch g (List.mem_cons_of_mem _ hg))
      (fun g hg => hfit g (List.mem_cons_of_mem _ hg))
      (fun g hg => hsize g (List.mem_cons_of_mem _ hg))
    refine ⟨c, fun rest => ?_, hclen⟩
    have hloop2 : copyLoop stride e.offset e.format.get_size ma.values.get_bytes
        (numChunks e.format.get_size ma.values.get_bytes.length) 0 bytes = some b := by
      rw [hk]; exact hloop
    have hsplit : (e :: tail) ++ rest = e :: (tail ++ rest) := rfl
    rw [hsplit, packAttributes_cons_found hf hloop2]
    exact hc rest

theorem packAttributes_total {m : Mesh} {stride N : Nat} :
    ∀ {es : List VertexAttributeDescriptor} {bytes : List Nat},
      bytes.length = stride * N →
      (∀ e ∈ es, e.offset + e.format.get_size ≤ stride) →
      (∀ e ∈ es, ∀ a ∈ m.attributes, e.name = a.name →
        a.values.get_bytes.length = e.format.get_size * N) →
      ∃ r, packAttributes m stride es bytes = some r := by
  intro es
  induction es with
  | nil =>
    intro bytes _ _ _
    exact ⟨Except.ok bytes, rfl⟩
  | cons e tail ih =>
    intro bytes hlen hfit hsize
    cases hf : m.attributes.find? (fun a => e.name == a.name) with
    | none =>
      exact ⟨Except.error (.MissingVertexAttribute e.name), by simp [packAttributes, hf]⟩
    | some ma =>
      have hmem := List.mem_of_find?_eq_some hf
      have hpred : e.name = ma.name := by
        have := List.find?_some hf
        simpa using this
      have hab : ma.values.get_bytes.length = e.format.get_size * N :=
        hsize e (List.mem_cons_self e tail) ma hmem hpred
      have hszpos : 0 < e.format.get_size := get_size_pos e.format
      have hk : numChunks e.format.get_size ma.values.get_bytes.length = N := by
        rw [hab, numChunks_mul hszpos]
      have hfite : e.offset + e.format.get_size ≤ stride :=
        hfit e (List.mem_cons_self e tail)
      obtain ⟨b, hloop⟩ := @copyLoop_some stride e.offset e.format.get_size
        ma.values.get_bytes N 0 bytes
        (by
          intro n _ hn2
          constructor
          · have h1 : stride * (n + 1) ≤ stride * N :=
              Nat.mul_le_mul (Nat.le_refl stride) (by omega)
            have h2 : stride * (n + 1) = stride * n + stride := Nat.mul_succ stride n
            omega
          · rw [List.length_take, List.length_drop, hab]
            have h1 : e.format.get_size * (n + 1) ≤ e.format.get_size * N :=
              Nat.mul_le_mul (Nat.le_refl _) (by omega)
            have h2 : e.format.get_size * (n + 1) =
                e.format.get_size * n + e.format.get_size := Nat.mul_succ _ n
            omega)
      have hloop2 : copyLoop stride e.offset e.format.get_size ma.values.get_bytes
          (numChunks e.format.get_size ma.values.get_bytes.length) 0 bytes = some b := by
        rw [hk]; exact hloop
      have hblen : b.length = stride * N := by rw [copyLoop_length hloop, hlen]
      obtain ⟨r, hr⟩ := @ih b hblen
        (fun g hg => hfit g (List.mem_cons_of_mem _ hg))
        (fun g hg => hsize g (List.mem_cons_of_mem _ hg))
      exact ⟨r, by rw [packAttributes_cons_found hf hloop2]; exact hr⟩

/-! ### Helper lemmas about index serialization -/

theorem length_flatMap_const (f : Nat → List Nat) (k : Nat) (hk : ∀ x, (f x).length = k) :
    ∀ l : List Nat, (l.flatMap f).length = k * l.length := by
  intro l
  induction l with
  | nil => simp
  | cons x xs ih =>
    rw [List.flatMap_cons, List.length_append, hk x, ih, List.length_cons, Nat.mul_succ]
    omega

theorem flatMap_getElem (f : Nat → List Nat) (k : Nat) (hk : ∀ x, (f x).length = k) :
    ∀ (l : List Nat) (j r : Nat), j < l.length → r < k →
      (l.flatMap f)[k * j + r]? = (f (l.getD j 0))[r]? := by
  intro l
  induction l with
  | nil =>
    intro j r hj _
    simp at hj
  | cons x xs ih =>
    intro j r hj hr
    cases j with
    | zero =>
      rw [List.flatMap_cons, List.getElem?_append, hk x, List.getD_cons_zero]
      rw [if_pos (by omega)]
      simp
    | succ j' =>
      have hmul : k * (j' + 1) = k * j' + k := Nat.mul_succ k j'
      rw [List.flatMap_cons,
        List.getElem?_append_right (by rw [hk x]; omega), hk x, List.getD_cons_succ]
      have hidx : k * (j' + 1) + r - k = k * j' + r := by omega
      rw [hidx, ih j' r (by simpa using hj) hr]

theorem bytes16_length (v : Nat) : (bytes16 v).length = 2 := rfl

theorem bytes32_length (v : Nat) : (bytes32 v).length = 4 := rfl

theorem bytes16_decode (l : List Nat) (j : Nat) (hj : j < l.length) :
    ((l.map (fun i => i % 65536)).flatMap bytes16).getD (2 * j) 0 +
      256 * ((l.map (fun i => i % 65536)).flatMap bytes16).getD (2 * j + 1) 0 =
        l.getD j 0 % 65536 := by
  have hjm : j < (l.map (fun i => i % 65536)).length := by rw [List.length_map]; exact hj
  have hv : (l.map (fun i => i % 65536)).getD j 0 = l.getD j 0 % 65536 := by
    rw [List.getD_eq_getElem?_getD, List.getElem?_map, List.getD_eq_getElem?_getD,
      List.getElem?_eq_getElem hj]
    rfl
  have h0 : ((l.map (fun i => i % 65536)).flatMap bytes16)[2 * j]? =
      (bytes16 ((l.map (fun i => i % 65536)).getD j 0))[0]? := by
    have := flatMap_getElem bytes16 2 bytes16_length (l.map (fun i => i % 65536)) j 0 hjm
      (by omega)
    simpa using this
  have h1 : ((l.map (fun i => i % 65536)).flatMap bytes16)[2 * j + 1]? =
      (bytes16 ((l.map (fun i => i % 65536)).getD j 0))[1]? := by
    exact flatMap_getElem bytes16 2 bytes16_length (l.map (fun i => i % 65536)) j 1 hjm
      (by omega)
  rw [List.getD_eq_getElem?_getD, List.getD_eq_getElem?_getD, h0, h1, hv]
  show l.getD j 0 % 65536 % 256 + 256 * (l.getD j 0 % 65536 / 256 % 256) = l.getD j 0 % 65536
  omega

theorem bytes32_decode (l : List Nat) (j : Nat) (hj : j < l.length)
    (h32 : l.getD j 0 < 4294967296) :
    (l.flatMap bytes32).getD (4 * j) 0 + 256 * (l.flatMap bytes32).getD (4 * j + 1) 0 +
      65536 * (l.flatMap bytes32).getD (4 * j + 2) 0 +
      16777216 * (l.flatMap bytes32).getD (4 * j + 3) 0 = l.getD j 0 := by
  have h0 : (l.flatMap bytes32)[4 * j]? = (bytes32 (l.getD j 0))[0]? := by
    have := flatMap_getElem bytes32 4 bytes32_length l j 0 hj (by omega)
    simpa using this
  have h1 : (l.flatMap bytes32)[4 * j + 1]? = (bytes32 (l.getD j 0))[1]? :=
    flatMap_getElem bytes32 4 bytes32_length l j 1 hj (by omega)
  have h2 : (l.flatMap bytes32)[4 * j + 2]? = (bytes32 (l.getD j 0))[2]? :=
    flatMap_getElem bytes32 4 bytes32_length l j 2 hj (by omega)
  have h3 : (l.flatMap bytes32)[4 * j + 3]? = (bytes32 (l.getD j 0))[3]? :=
    flatMap_getElem bytes32 4 bytes32_length l j 3 hj (by omega)
  rw [List.getD_eq_getElem?_getD, List.getD_eq_getElem?_getD, List.getD_eq_getElem?_getD,
    List.getD_eq_getElem?_getD, h0, h1, h2, h3]
  show l.getD j 0 % 256 + 256 * (l.getD j 0 / 256 % 256) + 65536 * (l.getD j 0 / 65536 % 256) +
    16777216 * (l.getD j 0 / 16777216 % 256) = l.getD j 0
  omega

theorem setup_mesh_resource_hit {ctx : RenderContext} {rra : RenderResourceAssignments}
    {d : VertexBufferDescriptor} {handle : Nat} {meshes : AssetStorage} {vb : Nat}
    (hv : ctx.get_asset_resource handle VERTEX_BUFFER_ASSET_INDEX = some vb) :
    setup_mesh_resource ctx rra d handle meshes =
      some (ctx, rra.set_vertex_buffer "Vertex" vb
        (ctx.get_asset_resource handle INDEX_BUFFER_ASSET_INDEX)) := by
  simp only [setup_mesh_resource, hv]

/-! ### Claim theorems -/

/-- Claim C1 counterexample: `ceMesh` contains an attribute for every name
`ceDescriptor` references and all its attributes have the same length, yet
`get_vertex_buffer_bytes` does not return `Ok` — it panics (the stride-0
output buffer cannot hold the 4-byte chunk), so the claim's conclusion fails
at this input. -/
theorem C1_counterexample :
    (∀ e ∈ ceDescriptor.attributes, ∃ a ∈ ceMesh.attributes, e.name = a.name) ∧
    (∀ a ∈ ceMesh.attributes, a.values.len = ceMesh.vertex_count) ∧
    ceMesh.get_vertex_buffer_bytes ceDescriptor = none := by decide

/-- Claim C1 (amended): if the mesh contains an attribute for every name the
descriptor references, all mesh attributes have the same length `N` (the
first attribute's length, 0 for no attributes), and additionally every entry
fits inside the stride and every matching attribute's raw byte view has
exactly `size(format) * N` bytes, then `get_vertex_buffer_bytes` returns `Ok`
with a buffer of exactly `stride * N` bytes. -/
theorem C1_pack_ok (m : Mesh) (d : VertexBufferDescriptor)
    (hmatch : ∀ e ∈ d.attributes, ∃ a ∈ m.attributes, e.name = a.name)
    (hlen : ∀ a ∈ m.attributes, a.values.len = m.vertex_count)
    (hfit : ∀ e ∈ d.attributes, e.offset + e.format.get_size ≤ d.stride)
    (hsize : ∀ e ∈ d.attributes, ∀ a ∈ m.attributes, e.name = a.name →
      a.values.get_bytes.length = e.format.get_size * m.vertex_count) :
    ∃ b, m.get_vertex_buffer_bytes d = some (Except.ok b) ∧
      b.length = d.stride * m.vertex_count := by
  obtain ⟨b, hrw, hblen⟩ := @packAttributes_runs m d.stride m.vertex_count
    d.attributes (List.replicate (d.stride * m.vertex_count) 0)
    (by simp) hmatch hfit hsize
  refine ⟨b, ?_, hblen⟩
  have hnil := hrw []
  rw [List.append_nil] at hnil
  unfold Mesh.get_vertex_buffer_bytes
  rw [hnil]
  rfl

/-- Claim C1 witness: the unit-test mesh and the stride-32 `Vertex` layout
satisfy the hypotheses, and packing yields a 96-byte buffer. -/
theorem C1_witness :
    ∃ b, testMesh.get_vertex_buffer_bytes testDescriptor = some (Except.ok b) ∧
      b.length = testDescriptor.stride * testMesh.vertex_count :=
  C1_pack_ok testMesh testDescriptor (by decide) (by decide) (by decide) (by decide)

/-- Claim C2 counterexample: packing `ce2Mesh` under `ce2Descriptor` (two
entries at the same offset) succeeds, the first entry `a` matches the mesh
attribute with raw bytes `[1, 0, 0, 0]` and one chunk, yet the output byte at
`stride * 0 + offset + 0 = 0` is 2, the byte the second entry wrote — not the
byte of entry `a`'s chunk 0. -/
theorem C2_counterexample :
    ce2Mesh.get_vertex_buffer_bytes ce2Descriptor = some (Except.ok [2, 0, 0, 0]) ∧
    ce2Descriptor.attributes.getD 0 ⟨"", 0, .Float⟩ = ⟨"a", 0, .Float⟩ ∧
    ce2Mesh.attributes.find? (fun x => "a" == x.name) = some ⟨"a", .Float [1]⟩ ∧
    numChunks 4 (VertexAttributeValues.Float [1]).get_bytes.length = 1 ∧
    ¬ ([2, 0, 0, 0] : List Nat)[4 * 0 + 0 + 0]? =
      (VertexAttributeValues.Float [1]).get_bytes[4 * 0 + 0]? := by decide

/-- Claim C2 (amended): whenever packing succeeds and additionally every
descriptor entry fits inside the stride and distinct entries occupy disjoint
byte ranges within a vertex record, the output buffer has `stride * N` bytes;
for each entry and chunk index `i`, the bytes at
`stride * i + offset .. + size` equal the `i`-th size-byte chunk of the
matching attribute's raw view; and every byte not written by any entry is
zero. -/
theorem C2_layout (m : Mesh) (d : VertexBufferDescriptor) (out : List Nat)
    (hpack : m.get_vertex_buffer_bytes d = some (Except.ok out))
    (hfit : ∀ e ∈ d.attributes, e.offset + e.format.get_size ≤ d.stride)
    (hdisj : d.attributes.Pairwise (fun e g => e.offset + e.format.get_size ≤ g.offset ∨
      g.offset + g.format.get_size ≤ e.offset)) :
    out.length = d.stride * m.vertex_count ∧
    (∀ e ∈ d.attributes, ∀ a, m.attributes.find? (fun x => e.name == x.name) = some a →
      ∀ i, i < numChunks e.format.get_size a.values.get_bytes.length →
      ∀ j, j < e.format.get_size →
        out[d.stride * i + e.offset + j]? =
          a.values.get_bytes[e.format.get_size * i + j]?) ∧
    (∀ p, p < out.length → (∀ e ∈ d.attributes, ¬ entryWrites m d.stride e p) →
      out[p]? = some 0) := by
  unfold Mesh.get_vertex_buffer_bytes at hpack
  have hlen : out.length = d.stride * m.vertex_count := by
    rw [packAttributes_ok_length hpack]
    simp
  refine ⟨hlen, ?_, ?_⟩
  · exact fun e he a hf i hi j hj =>
      packAttributes_touched hpack hfit hdisj e he a hf i hi j hj
  · intro p hp huntouched
    rw [packAttributes_untouched hpack p huntouched]
    rw [List.getElem?_replicate, if_pos (by omega)]

/-- Claim C2 witness: for the two-vertex mesh `w2Mesh` and the stride-4
descriptor, the packed buffer is `[1, 0, 0, 0, 2, 0, 0, 0]` and the layout
properties hold. -/
theorem C2_witness :
    ([1, 0, 0, 0, 2, 0, 0, 0] : List Nat).length = w2Descriptor.stride * w2Mesh.vertex_count ∧
    (∀ e ∈ w2Descriptor.attributes, ∀ a,
      w2Mesh.attributes.find? (fun x => e.name == x.name) = some a →
      ∀ i, i < numChunks e.format.get_size a.values.get_bytes.length →
      ∀ j, j < e.format.get_size →
        ([1, 0, 0, 0, 2, 0, 0, 0] : List Nat)[w2Descriptor.stride * i + e.offset + j]? =
          a.values.get_bytes[e.format.get_size * i + j]?) ∧
    (∀ p, p < ([1, 0, 0, 0, 2, 0, 0, 0] : List Nat).length →
      (∀ e ∈ w2Descriptor.attributes, ¬ entryWrites w2Mesh w2Descriptor.stride e p) →
      ([1, 0, 0, 0, 2, 0, 0, 0] : List Nat)[p]? = some 0) :=
  C2_layout w2Mesh w2Descriptor [1, 0, 0, 0, 2, 0, 0, 0] (by decide) (by decide) (by decide)

/-- Claim C3 counterexample: `ce3Descriptor`'s second entry names `b`, absent
from `ceMesh`, yet `get_vertex_buffer_bytes` does not fail with
`MissingVertexAttribute` — processing the earlier present entry `a` panics
first (stride-0 buffer), so the function fails with a panic instead. -/
theorem C3_counterexample :
    (∃ e ∈ ce3Descriptor.attributes, ∀ a ∈ ceMesh.attributes, e.name ≠ a.name) ∧
    ceMesh.get_vertex_buffer_bytes ce3Descriptor = none := by decide

/-- Claim C3 (amended): if some descriptor entry names an attribute absent
from the mesh, and every earlier entry has a matching attribute, fits inside
the stride, and its matching attributes' raw byte views have exactly
`size(format) * N` bytes (so no earlier copy panics), then
`get_vertex_buffer_bytes` fails with `MissingVertexAttribute` carrying the
first such entry's name and returns no buffer. -/
theorem C3_missing (m : Mesh) (d : VertexBufferDescriptor)
    (pre post : List VertexAttributeDescriptor) (e : VertexAttributeDescriptor)
    (hd : d.attributes = pre ++ e :: post)
    (hpre1 : ∀ g ∈ pre, ∃ a ∈ m.attributes, g.name = a.name)
    (hpre2 : ∀ g ∈ pre, g.offset + g.format.get_size ≤ d.stride)
    (hpre3 : ∀ g ∈ pre, ∀ a ∈ m.attributes, g.name = a.name →
      a.values.get_bytes.length = g.format.get_size * m.vertex_count)
    (hmiss : ∀ a ∈ m.attributes, e.name ≠ a.name) :
    m.get_vertex_buffer_bytes d =
      some (Except.error (.MissingVertexAttribute e.name)) := by
  obtain ⟨b, hrw, hblen⟩ := @packAttributes_runs m d.stride m.vertex_count pre
    (List.replicate (d.stride * m.vertex_count) 0) (by simp) hpre1 hpre2 hpre3
  have hfnone : m.attributes.find? (fun a => e.name == a.name) = none := by
    rw [List.find?_eq_none]
    intro a ha
    simpa using hmiss a ha
  unfold Mesh.get_vertex_buffer_bytes
  rw [hd, hrw (e :: post)]
  simp [packAttributes, hfnone]

/-- Claim C3 witness: `w3Descriptor` references `a` (present, in bounds) and
then `b` (absent); packing fails with `MissingVertexAttribute "b"`. -/
theorem C3_witness :
    w3Mesh.get_vertex_buffer_bytes w3Descriptor =
      some (Except.error (.MissingVertexAttribute "b")) :=
  C3_missing w3Mesh w3Descriptor [⟨"a", 0, .Float⟩] [] ⟨"b", 0, .Float⟩ (by decide)
    (by decide) (by decide) (by decide) (by decide)

/-- Claim C9: if every descriptor entry satisfies
`offset + size(format) ≤ stride` and every matching mesh attribute's raw byte
view has exactly `size(format) * N` bytes, then every slice access in
`get_vertex_buffer_bytes` is in bounds and the function is total (it returns
`Ok` or the missing-attribute error, never a panic); without these
preconditions the copy can index past the end of the output buffer, as the
stride-0 input shows. -/
theorem C9_no_panic (m : Mesh) (d : VertexBufferDescriptor)
    (hfit : ∀ e ∈ d.attributes, e.offset + e.format.get_size ≤ d.stride)
    (hsize : ∀ e ∈ d.attributes, ∀ a ∈ m.attributes, e.name = a.name →
      a.values.get_bytes.length = e.format.get_size * m.vertex_count) :
    (∃ r, m.get_vertex_buffer_bytes d = some r) ∧
    ceMesh.get_vertex_buffer_bytes ceDescriptor = none := by
  refine ⟨?_, by decide⟩
  obtain ⟨r, hr⟩ := @packAttributes_total m d.stride m.vertex_count d.attributes
    (List.replicate (d.stride * m.vertex_count) 0) (by simp) hfit hsize
  exact ⟨r, hr⟩

/-- Claim C9 witness: the unit-test mesh and descriptor satisfy the bounds,
so packing returns a value. -/
theorem C9_witness :
    (∃ r, testMesh.get_vertex_buffer_bytes testDescriptor = some r) ∧
    ceMesh.get_vertex_buffer_bytes ceDescriptor = none :=
  C9_no_panic testMesh testDescriptor (by decide) (by decide)

/-- Claim C6: `get_index_buffer_bytes` returns `None` exactly when the mesh's
`indices` field is absent, and a present but empty index sequence yields
`Some` of an empty buffer — distinguishable from `None`. -/
theorem C6_index_none_iff (m : Mesh) (f : IndexFormat) :
    (m.get_index_buffer_bytes f = none ↔ m.indices = none) ∧
    (m.indices = some [] → m.get_index_buffer_bytes f = some []) := by
  constructor
  · unfold Mesh.get_index_buffer_bytes
    cases m.indices <;> simp
  · intro h
    unfold Mesh.get_index_buffer_bytes
    rw [h]
    cases f <;> rfl

/-- Claim C6 witness: a mesh with present-but-empty indices yields
`some []`, not `none`. -/
theorem C6_witness :
    mesh6.indices = some [] ∧ mesh6.get_index_buffer_bytes IndexFormat.Uint16 = some [] :=
  ⟨by decide, (C6_index_none_iff mesh6 IndexFormat.Uint16).2 (by decide)⟩

/-- Claim C7: with indices present, the 16-bit format serializes each 32-bit
index reduced modulo 2^16 as tightly packed little-endian 16-bit integers
(2 bytes per index; decoding position `j` gives `index_j % 65536`), and the
32-bit format serializes the original sequence directly as tightly packed
32-bit integers (4 bytes per index; decoding position `j` gives `index_j`
for any 32-bit value). -/
theorem C7_index_serialization (m : Mesh) (l : List Nat) (hind : m.indices = some l) :
    (∃ b, m.get_index_buffer_bytes IndexFormat.Uint16 = some b ∧
      b.length = 2 * l.length ∧
      ∀ j, j < l.length →
        b.getD (2 * j) 0 + 256 * b.getD (2 * j + 1) 0 = l.getD j 0 % 65536) ∧
    ((∀ v ∈ l, v < 4294967296) →
      ∃ b, m.get_index_buffer_bytes IndexFormat.Uint32 = some b ∧
        b.length = 4 * l.length ∧
        ∀ j, j < l.length →
          b.getD (4 * j) 0 + 256 * b.getD (4 * j + 1) 0 +
            65536 * b.getD (4 * j + 2) 0 + 16777216 * b.getD (4 * j + 3) 0 =
              l.getD j 0) := by
  constructor
  · refine ⟨(l.map (fun i => i % 65536)).flatMap bytes16, ?_, ?_, ?_⟩
    · unfold Mesh.get_index_buffer_bytes
      rw [hind]
      rfl
    · rw [length_flatMap_const bytes16 2 bytes16_length, List.length_map]
    · exact fun j hj => bytes16_decode l j hj
  · intro h32
    refine ⟨l.flatMap bytes32, ?_, ?_, ?_⟩
    · unfold Mesh.get_index_buffer_bytes
      rw [hind]
      rfl
    · rw [length_flatMap_const bytes32 4 bytes32_length]
    · intro j hj
      apply bytes32_decode l j hj
      apply h32
      rw [List.getD_eq_getElem?_getD, List.getElem?_eq_getElem hj]
      exact List.getElem_mem hj

/-- Claim C7 witness: the boundary example — indices `[0, 1, 65536]` pack at
16 bits to bytes `[0,0, 1,0, 0,0]`, i.e. the 16-bit values 0, 1, 0 (the third
index wraps), while at 32 bits the original values decode back. -/
theorem C7_witness :
    mesh7.indices = some [0, 1, 65536] ∧
    mesh7.get_index_buffer_bytes IndexFormat.Uint16 = some [0, 0, 1, 0, 0, 0] ∧
    (∃ b, mesh7.get_index_buffer_bytes IndexFormat.Uint16 = some b ∧
      b.length = 2 * ([0, 1, 65536] : List Nat).length ∧
      ∀ j, j < ([0, 1, 65536] : List Nat).length →
        b.getD (2 * j) 0 + 256 * b.getD (2 * j + 1) 0 =
          ([0, 1, 65536] : List Nat).getD j 0 % 65536) :=
  ⟨by decide, by decide, (C7_index_serialization mesh7 [0, 1, 65536] (by decide)).1⟩

/-- Claim C8: when the mesh referenced by a changed entity is present in the
asset storage, the specializer body sets the renderable's render configuration
topology field to the mesh's `primitive_topology`, changes nothing else of the
configuration, and running it again on the result returns it unchanged. -/
theorem C8_specializer (meshes : AssetStorage) (handle : Nat) (r : Renderable)
    (mesh : Mesh) (hm : meshes.get handle = some mesh) :
    ∃ r', specialize_mesh_entity meshes handle r = some r' ∧
      r'.render_resource_assignments.pipeline_specialization.primitive_topology =
        mesh.primitive_topology ∧
      r'.render_resource_assignments.id = r.render_resource_assignments.id ∧
      r'.render_resource_assignments.vertex_buffers =
        r.render_resource_assignments.vertex_buffers ∧
      specialize_mesh_entity meshes handle r' = some r' := by
  refine ⟨⟨⟨r.render_resource_assignments.id, r.render_resource_assignments.vertex_buffers,
    ⟨mesh.primitive_topology⟩⟩⟩, ?_, rfl, rfl, rfl, ?_⟩
  · unfold specialize_mesh_entity
    rw [hm]
    rfl
  · unfold specialize_mesh_entity
    rw [hm]
    rfl

/-- Claim C8 witness: specializing `r8` against `okMesh` (handle 7) sets the
topology to `TriangleList` and a second run is a no-op. -/
theorem C8_witness :
    ∃ r', specialize_mesh_entity meshes0 7 r8 = some r' ∧
      r'.render_resource_assignments.pipeline_specialization.primitive_topology =
        okMesh.primitive_topology ∧
      r'.render_resource_assignments.id = r8.render_resource_assignments.id ∧
      r'.render_resource_assignments.vertex_buffers =
        r8.render_resource_assignments.vertex_buffers ∧
      specialize_mesh_entity meshes0 7 r' = some r' :=
  C8_specializer meshes0 7 r8 okMesh (by decide)

/-- Claim C4: provisioning is idempotent per mesh identity.  Starting from a
context with no cached vertex handle for the mesh, a successful first run
calls `create_buffer_with_data` exactly once per slot (one vertex-usage, one
index-usage record appended to the creation log), and a second run against
the resulting context obtains the cached handles from `get_asset_resource`
and attaches them, returning the context unchanged (same registry, same
creation log). -/
theorem C4_provisioning_idempotent (ctx : RenderContext)
    (rra rra2 : RenderResourceAssignments) (d : VertexBufferDescriptor)
    (handle : Nat) (meshes : AssetStorage) (ctx1 : RenderContext)
    (a1 : RenderResourceAssignments)
    (hfresh : ctx.get_asset_resource handle VERTEX_BUFFER_ASSET_INDEX = none)
    (hrun : setup_mesh_resource ctx rra d handle meshes = some (ctx1, a1)) :
    (∃ vbytes ibytes, ctx1.created =
      ctx.created ++ [(⟨BufferUsage.VERTEX⟩, vbytes), (⟨BufferUsage.INDEX⟩, ibytes)]) ∧
    ∃ vb, ctx1.get_asset_resource handle VERTEX_BUFFER_ASSET_INDEX = some vb ∧
      setup_mesh_resource ctx1 rra2 d handle meshes =
        some (ctx1, rra2.set_vertex_buffer "Vertex" vb
          (ctx1.get_asset_resource handle INDEX_BUFFER_ASSET_INDEX)) := by
  unfold setup_mesh_resource at hrun
  split at hrun
  · rename_i vb heq
    rw [hfresh] at heq
    cases heq
  · split at hrun
    · cases hrun
    · rename_i mesh hmesh
      split at hrun
      · cases hrun
      · cases hrun
      · rename_i vertex_bytes hpack
        simp only [RenderContext.create_buffer_with_data] at hrun
        split at hrun
        · cases hrun
        · rename_i index_bytes hib
          simp only [RenderContext.set_asset_resource] at hrun
          simp only [Option.some.injEq, Prod.mk.injEq] at hrun
          obtain ⟨h1, h2⟩ := hrun
          subst h1
          subst h2
          constructor
          · exact ⟨vertex_bytes, index_bytes, by simp⟩
          · refine ⟨ctx.next_id, ?_, ?_⟩
            · simp [RenderContext.get_asset_resource, List.find?_cons,
                VERTEX_BUFFER_ASSET_INDEX, INDEX_BUFFER_ASSET_INDEX]
            · apply setup_mesh_resource_hit
              simp [RenderContext.get_asset_resource, List.find?_cons,
                VERTEX_BUFFER_ASSET_INDEX, INDEX_BUFFER_ASSET_INDEX]

/-- Claim C4 witness: provisioning handle 7 (`okMesh`) from the empty context
creates one buffer per slot; the second run reuses the cached handles. -/
theorem C4_witness :
    (∃ vbytes ibytes,
      (RenderContext.mk [((7, 1), 1), ((7, 0), 0)] 2
        [(⟨BufferUsage.VERTEX⟩, [5, 0, 0, 0]), (⟨BufferUsage.INDEX⟩, [0, 0])]).created =
      ctx0.created ++ [(⟨BufferUsage.VERTEX⟩, vbytes), (⟨BufferUsage.INDEX⟩, ibytes)]) ∧
    ∃ vb, (RenderContext.mk [((7, 1), 1), ((7, 0), 0)] 2
        [(⟨BufferUsage.VERTEX⟩, [5, 0, 0, 0]),
          (⟨BufferUsage.INDEX⟩, [0, 0])]).get_asset_resource 7
            VERTEX_BUFFER_ASSET_INDEX = some vb ∧
      setup_mesh_resource (RenderContext.mk [((7, 1), 1), ((7, 0), 0)] 2
        [(⟨BufferUsage.VERTEX⟩, [5, 0, 0, 0]), (⟨BufferUsage.INDEX⟩, [0, 0])]) rra0 dOk 7
          meshes0 =
        some (RenderContext.mk [((7, 1), 1), ((7, 0), 0)] 2
          [(⟨BufferUsage.VERTEX⟩, [5, 0, 0, 0]), (⟨BufferUsage.INDEX⟩, [0, 0])],
          rra0.set_vertex_buffer "Vertex" vb
            ((RenderContext.mk [((7, 1), 1), ((7, 0), 0)] 2
              [(⟨BufferUsage.VERTEX⟩, [5, 0, 0, 0]),
                (⟨BufferUsage.INDEX⟩, [0, 0])]).get_asset_resource 7
                  INDEX_BUFFER_ASSET_INDEX)) :=
  C4_provisioning_idempotent ctx0 rra0 rra0 dOk 7 meshes0
    (RenderContext.mk [((7, 1), 1), ((7, 0), 0)] 2
      [(⟨BufferUsage.VERTEX⟩, [5, 0, 0, 0]), (⟨BufferUsage.INDEX⟩, [0, 0])])
    (RenderResourceAssignments.mk 0 [("Vertex", 0, some 1)] ⟨.TriangleList⟩)
    (by decide) (by decide)

/-- Claim C5 counterexample: provisioning `ce5Mesh` (indices absent) on a
cache miss does not succeed — vertex packing succeeds, but the hardcoded
`.unwrap()` of the absent index bytes panics, so no vertex-only provisioning
happens. -/
theorem C5_counterexample :
    ctx0.get_asset_resource 7 VERTEX_BUFFER_ASSET_INDEX = none ∧
    AssetStorage.get meshes5 7 = some ce5Mesh ∧
    ce5Mesh.get_vertex_buffer_bytes d0 = some (Except.ok []) ∧
    ce5Mesh.indices = none ∧
    setup_mesh_resource ctx0 rra0 d0 7 meshes5 = none := by decide

/-- Claim C5 (amended): on a cache miss with the mesh present and vertex
packing succeeding, the provider creates a vertex buffer from the packed
vertex bytes and unconditionally creates an index buffer from the unwrapped
index bytes; when the mesh's `indices` field is absent the unwrap panics, so
provisioning an index-free mesh does not succeed (it creates no buffer pair
and returns nothing). -/
theorem C5_index_always_created (ctx : RenderContext) (rra : RenderResourceAssignments)
    (d : VertexBufferDescriptor) (handle : Nat) (meshes : AssetStorage) (mesh : Mesh)
    (vbytes : List Nat)
    (hfresh : ctx.get_asset_resource handle VERTEX_BUFFER_ASSET_INDEX = none)
    (hmesh : meshes.get handle = some mesh)
    (hpack : mesh.get_vertex_buffer_bytes d = some (Except.ok vbytes)) :
    (mesh.indices = none → setup_mesh_resource ctx rra d handle meshes = none) ∧
    (∀ ibytes, mesh.get_index_buffer_bytes IndexFormat.Uint16 = some ibytes →
      ∃ p, setup_mesh_resource ctx rra d handle meshes = some p ∧
        p.1.created = ctx.created ++
          [(⟨BufferUsage.VERTEX⟩, vbytes), (⟨BufferUsage.INDEX⟩, ibytes)]) := by
  constructor
  · intro hnone
    have hib : mesh.get_index_buffer_bytes IndexFormat.Uint16 = none := by
      unfold Mesh.get_index_buffer_bytes
      rw [hnone]
      rfl
    simp only [setup_mesh_resource, hfresh, hmesh, hpack, hib,
      RenderContext.create_buffer_with_data]
  · intro ibytes hib
    simp only [setup_mesh_resource, hfresh, hmesh, hpack, hib,
      RenderContext.create_buffer_with_data, RenderContext.set_asset_resource]
    exact ⟨_, rfl, by simp⟩

/-- Claim C5 witness: `okMesh` has indices, so a miss-path run succeeds and
logs exactly the vertex-usage and index-usage creations; and the absent-index
implication is discharged vacuously at this input. -/
theorem C5_witness :
    (okMesh.indices = none → setup_mesh_resource ctx0 rra0 dOk 7 meshes0 = none) ∧
    (∀ ibytes, okMesh.get_index_buffer_bytes IndexFormat.Uint16 = some ibytes →
      ∃ p, setup_mesh_resource ctx0 rra0 dOk 7 meshes0 = some p ∧
        p.1.created = ctx0.created ++
          [(⟨BufferUsage.VERTEX⟩, [5, 0, 0, 0]), (⟨BufferUsage.INDEX⟩, ibytes)]) :=
  C5_index_always_created ctx0 rra0 dOk 7 meshes0 okMesh [5, 0, 0, 0]
    (by decide) (by decide) (by decide)

/-- Claim C10: the provider hardcodes `IndexFormat::Uint16`; on a successful
miss-path run of a mesh with indices, the uploaded index buffer is the 16-bit
serialization, so every stored index value decodes to the original value
reduced modulo 2^16. -/
theorem C10_uint16_hardcoded (ctx : RenderContext) (rra : RenderResourceAssignments)
    (d : VertexBufferDescriptor) (handle : Nat) (meshes : AssetStorage) (mesh : Mesh)
    (l : List Nat) (ctx1 : RenderContext) (a1 : RenderResourceAssignments)
    (hfresh : ctx.get_asset_resource handle VERTEX_BUFFER_ASSET_INDEX = none)
    (hmesh : meshes.get handle = some mesh)
    (hind : mesh.indices = some l)
    (hrun : setup_mesh_resource ctx rra d handle meshes = some (ctx1, a1)) :
    ∃ vbytes, ctx1.created = ctx.created ++ [(⟨BufferUsage.VERTEX⟩, vbytes),
        (⟨BufferUsage.INDEX⟩, (l.map (fun i => i % 65536)).flatMap bytes16)] ∧
      ∀ j, j < l.length →
        ((l.map (fun i => i % 65536)).flatMap bytes16).getD (2 * j) 0 +
          256 * ((l.map (fun i => i % 65536)).flatMap bytes16).getD (2 * j + 1) 0 =
            l.getD j 0 % 65536 := by
  have hib : mesh.get_index_buffer_bytes IndexFormat.Uint16 =
      some ((l.map (fun i => i % 65536)).flatMap bytes16) := by
    unfold Mesh.get_index_buffer_bytes
    rw [hind]
    rfl
  unfold setup_mesh_resource at hrun
  split at hrun
  · rename_i vb heq
    rw [hfresh] at heq
    cases heq
  · split at hrun
    · cases hrun
    · rename_i mesh2 hmesh2
      rw [hmesh] at hmesh2
      cases hmesh2
      split at hrun
      · cases hrun
      · cases hrun
      · rename_i vertex_bytes hpack
        simp only [RenderContext.create_buffer_with_data] at hrun
        split at hrun
        · rename_i hibn
          rw [hib] at hibn
          cases hibn
        · rename_i index_bytes hib2
          rw [hib] at hib2
          cases hib2
          simp only [RenderContext.set_asset_resource] at hrun
          simp only [Option.some.injEq, Prod.mk.injEq] at hrun
          obtain ⟨h1, h2⟩ := hrun
          subst h1
          exact ⟨vertex_bytes, by simp, fun j hj => bytes16_decode l j hj⟩

/-- Claim C10 witness: provisioning `mesh10` (single index 65536) uploads the
index bytes `[0, 0]`: the stored 16-bit value is 65536 mod 2^16 = 0. -/
theorem C10_witness :
    ∃ vbytes, (RenderContext.mk [((3, 1), 1), ((3, 0), 0)] 2
        [(⟨BufferUsage.VERTEX⟩, []), (⟨BufferUsage.INDEX⟩, [0, 0])]).created =
      ctx0.created ++ [(⟨BufferUsage.VERTEX⟩, vbytes),
        (⟨BufferUsage.INDEX⟩, (([65536] : List Nat).map (fun i => i % 65536)).flatMap bytes16)] ∧
      ∀ j, j < ([65536] : List Nat).length →
        ((([65536] : List Nat).map (fun i => i % 65536)).flatMap bytes16).getD (2 * j) 0 +
          256 * ((([65536] : List Nat).map (fun i => i % 65536)).flatMap bytes16).getD
            (2 * j + 1) 0 = ([65536] : List Nat).getD j 0 % 65536 :=
  C10_uint16_hardcoded ctx0 rra0 d0 3 meshes10 mesh10 [65536]
    (RenderContext.mk [((3, 1), 1), ((3, 0), 0)] 2
      [(⟨BufferUsage.VERTEX⟩, []), (⟨BufferUsage.INDEX⟩, [0, 0])])
    (RenderResourceAssignments.mk 0 [("Vertex", 0, some 1)] ⟨.TriangleList⟩)
    (by decide) (by decide) (by decide) (by decide)

end BevyMesh
